import Mathlib

/-!
Verification of the appointment availability/booking core of the
Clinic-Appointment repository.

The embedded code comes from:
* `Appointment.checkAvailability`, `Appointment.generateAppointmentNumber`,
  `Appointment.create`, `Appointment.update` (model layer);
* `AppointmentController.createAppointment`, `updateAppointment`,
  `cancelAppointment` (controller layer).

Timestamps are embedded as `Int` (minutes on a linear clock), durations as
`Nat` minutes, statuses and roles as the literal strings the code uses.
The appointments table is a `List Appt`; SQL query chains become a single
`List.filter` with the conjunction of the query's `where` clauses.
-/

/-- The three OR'd overlap sub-conditions of `Appointment.checkAvailability`,
for an existing window `[s2, e2)` against the candidate `[s1, e1)`:
1. existing starts at/before candidate start and ends after it;
2. existing starts before candidate end and ends at/after it;
3. existing fully contained in the candidate. -/
def overlapCodeB (s2 e2 s1 e1 : Int) : Bool :=
  (s2 ≤ s1 && s1 < e2) || (s2 < e1 && e1 ≤ e2) || (s1 ≤ s2 && e2 ≤ e1)

/-- The spec's single half-open interval overlap test:
`[s1,e1)` and `[s2,e2)` overlap iff `s1 < e2 AND s2 < e1`. -/
def overlapHalf (s1 e1 s2 e2 : Int) : Prop :=
  s1 < e2 ∧ s2 < e1

instance (s1 e1 s2 e2 : Int) : Decidable (overlapHalf s1 e1 s2 e2) := by
  unfold overlapHalf; infer_instance

/-- A row of the `appointments` table (fields relevant to the booking core;
see migration `003_create_appointments_table.js`). -/
structure Appt where
  id : Nat
  patientId : Nat
  doctorId : Nat
  date : Int
  durationMinutes : Nat
  type : String
  status : String
  confirmedAt : Option Int := none
  startedAt : Option Int := none
  completedAt : Option Int := none
  cancelledAt : Option Int := none
  cancelledBy : Option Nat := none
  cancellationReason : Option String := none
  number : String := ""
  createdBy : Nat := 0
deriving DecidableEq

/-- The status set `['scheduled', 'confirmed', 'in_progress']` used by the
`whereIn` clause of `checkAvailability` (the non-terminal statuses). -/
def activeStatus (s : String) : Bool :=
  s == "scheduled" || s == "confirmed" || s == "in_progress"

/-- Model of `Appointment.checkAvailability(doctorId, appointmentDate, durationMinutes,
excludeAppointmentId)`: build the conflict query (doctor, non-terminal status,
three-branch overlap test, optional id exclusion) and report `true` iff no
conflicting row exists. -/
def checkAvailability (appts : List Appt) (doctorId : Nat) (date : Int)
    (dur : Nat) (excl : Option Nat) : Bool :=
  let s1 := date
  let e1 := date + (dur : Int)
  let conflicts := appts.filter (fun a =>
    a.doctorId == doctorId && activeStatus a.status &&
    overlapCodeB a.date (a.date + (a.durationMinutes : Int)) s1 e1 &&
    (match excl with
     | some x => a.id != x
     | none => true))
  conflicts.length == 0

/-! ### Identifier generator (`Appointment.generateAppointmentNumber`)

JS strings become `String`, `Number.prototype.toString` becomes `natRepr`,
`String.prototype.padStart(w, '0')` becomes `padStart`, `parseInt` on the
digit suffix becomes `parseIntD`, the SQL `LIKE 'prefix%'` filter becomes
`scopeMatch`, and `ORDER BY appointment_number DESC ... FIRST` becomes
`lexMax?` (lexicographic maximum under byte order). -/

/-- The decimal digit character for a digit value `< 10`. -/
def digChar (n : Nat) : Char :=
  if n = 0 then '0' else if n = 1 then '1' else if n = 2 then '2'
  else if n = 3 then '3' else if n = 4 then '4' else if n = 5 then '5'
  else if n = 6 then '6' else if n = 7 then '7' else if n = 8 then '8' else '9'

/-- Little-endian decimal digit values of a number, with explicit fuel so the
definition is structural (the fuel `n` always suffices). -/
def natDigitsAux : Nat → Nat → List Nat
  | 0, _ => []
  | _ + 1, 0 => []
  | f + 1, n + 1 => ((n + 1) % 10) :: natDigitsAux f ((n + 1) / 10)

/-- Little-endian decimal digit values of `n` (empty for 0). -/
def natDigits (n : Nat) : List Nat := natDigitsAux n n

/-- Decimal representation, modelling `Number.prototype.toString()`. -/
def natRepr (n : Nat) : String :=
  if n = 0 then "0" else String.mk ((natDigits n).reverse.map digChar)

/-- Model of `String.prototype.padStart(w, '0')`: left-pad with zeros up to width `w`;
a string already at least `w` long is returned unchanged. -/
def padStart (w : Nat) (s : String) : String :=
  String.mk (List.replicate (w - s.data.length) '0' ++ s.data)

/-- Lexicographic strict order on character lists under code-point order,
modelling the store's ordering on `appointment_number` values. -/
def charsLt : List Char → List Char → Bool
  | [], [] => false
  | [], _ :: _ => true
  | _ :: _, [] => false
  | a :: as, b :: bs =>
    if a.toNat < b.toNat then true
    else if b.toNat < a.toNat then false
    else charsLt as bs

/-- Lexicographic strict order on strings. -/
def strLtB (a b : String) : Bool := charsLt a.data b.data

/-- Model of `LIKE 'p%'` on character lists: `s` begins with the pattern `p`. -/
def likeMatch : List Char → List Char → Bool
  | [], _ => true
  | _ :: _, [] => false
  | p :: ps, s :: ss => p == s && likeMatch ps ss

/-- The scope filter `appointment_number LIKE '<p>%'`. -/
def scopeMatch (p s : String) : Bool := likeMatch p.data s.data

/-- First row of `ORDER BY appointment_number DESC`: the lexicographically
greatest element of the list, `none` on an empty list. -/
def lexMax? (l : List String) : Option String :=
  l.foldr (fun s acc =>
    match acc with
    | none => some s
    | some t => if strLtB t s then some s else some t) none

/-- Decimal digit character test (code points 48–57). -/
def isDigitB (c : Char) : Bool := 48 ≤ c.toNat && c.toNat ≤ 57

/-- Value of a most-significant-first list of digit characters. -/
def digitsVal (l : List Char) : Nat :=
  l.foldl (fun acc c => acc * 10 + (c.toNat - 48)) 0

/-- Model of `parseInt` on the stripped suffix: the value of the maximal leading run
of digits, or `none` (JS `NaN`) when there is no leading digit. -/
def parseIntD (s : String) : Option Nat :=
  let run := s.data.takeWhile isDigitB
  if run.isEmpty then none else some (digitsVal run)

/-- Model of `s.replace(p, '')` for a string `s` that begins with `p`. -/
def stripScope (p s : String) : String := String.mk (s.data.drop p.data.length)

/-- The scope key `'A' + year + zero-padded 2-digit month`. -/
def pfxOf (y m : Nat) : String := "A" ++ natRepr y ++ padStart 2 (natRepr m)

/-- JS number-or-NaN rendered to a string. -/
def optNumStr : Option Nat → String
  | some n => natRepr n
  | none => "NaN"

/-- Model of `Appointment.generateAppointmentNumber()`: take the lexicographically
greatest stored number matching the scope `LIKE` filter, parse its suffix,
add one (1 when the scope is empty), and left-pad to 4 digits after the
scope key. -/
def genAppointmentNumber (y m : Nat) (numbers : List String) : String :=
  let p := pfxOf y m
  let matching := numbers.filter (fun s => scopeMatch p s)
  let lastNum := lexMax? matching
  let next : Option Nat :=
    match lastNum with
    | none => some 1
    | some s => (parseIntD (stripScope p s)).map (· + 1)
  p ++ padStart 4 (optNumStr next)

/-- Modelled from the spec: "the lexicographically greatest existing
appointment number with this scope prefix; parse the trailing digits as an
integer" — the greatest existing sequence value for a scope key, 0 when the
scope has no number. Used to compare the generator's output with the
claim's formula. -/
def specGreatestSeq (p : String) (numbers : List String) : Nat :=
  ((numbers.filter (fun s => scopeMatch p s)).map
    (fun s => (parseIntD (stripScope p s)).getD 0)).foldr max 0

/-- Runs `N` sequential generations, each generated number inserted into the
store before the next generation (the sequential-booking scenario). -/
def genRun (y m : Nat) : Nat → List String → List String
  | 0, _ => []
  | n + 1, numbers =>
    let s := genAppointmentNumber y m numbers
    s :: genRun y m n (s :: numbers)

/-- The 4-digit zero-padded rendering of a sequence value. -/
def pad4 (k : Nat) : String := padStart 4 (natRepr k)

/-- The four digit characters of `pad4 k` for `k ≤ 9999`. -/
def pad4Data (k : Nat) : List Char :=
  [digChar (k / 1000), digChar (k / 100 % 10), digChar (k / 10 % 10),
   digChar (k % 10)]

/-- Scope well-formedness (the generator's own output discipline and the
spec's fixed-width invariant): every stored number matching the scope key is
the key followed by a 4-digit zero-padded sequence between 1 and 9999. -/
def WFScope (p : String) (numbers : List String) : Prop :=
  ∀ s ∈ numbers, scopeMatch p s = true →
    ∃ k, 1 ≤ k ∧ k ≤ 9999 ∧ s = p ++ pad4 k

/-- The expected output of `N` sequential generations after sequence `M`. -/
def padRun (p : String) : Nat → Nat → List String
  | _, 0 => []
  | M, n + 1 => (p ++ pad4 (M + 1)) :: padRun p (M + 1) n

/-! ### Controller operations (`AppointmentController`)

Each HTTP handler becomes a function from the store state and the request
fields to `Except ApiErr` of the new state. The `users` and `patients`
tables are embedded as the identity data the handlers read. `createAppointment`
is split into its read phase (the validations and the availability query)
and its write phase (`Appointment.create`), mirroring the two awaited store
accesses in the handler; the handler itself is their sequential composition. -/

/-- A row of the `users` table (fields the booking handlers read). -/
structure UserRec where
  id : Nat
  role : String
  status : String
deriving DecidableEq

/-- Store state: the three tables the booking core touches, plus the key
supply modelling `gen_random_uuid()` for new appointment rows. -/
structure St where
  appts : List Appt
  patients : List Nat
  users : List UserRec
  nextId : Nat
deriving DecidableEq

/-- The error outcomes of the appointment handlers. The constructor records
the HTTP status and, for 404, the `error` field of the JSON body. -/
inductive ApiErr where
  | notFound404 (msg : String)
  | conflict409
  | alreadyCancelled400
deriving DecidableEq

/-- Model of `User.findById`. -/
def findUser (users : List UserRec) (id : Nat) : Option UserRec :=
  users.find? (fun u => u.id == id)

/-- Model of `Appointment.findById`. -/
def findAppt (appts : List Appt) (id : Nat) : Option Appt :=
  appts.find? (fun a => a.id == id)

/-- The duration used by the availability check in the create handler:
`appointmentData.duration_minutes || 30` (absent and the falsy 0 both give
the 30-minute default). -/
def checkDurOf (dur : Option Nat) : Nat :=
  match dur with
  | none => 30
  | some 0 => 30
  | some (k + 1) => k + 1

/-- Read phase of `AppointmentController.createAppointment`: validate the
patient reference, validate that the doctor exists with role `'doctor'` and
status `'active'` (one combined branch, one 404 response), then run the
availability check; `none` means all reads passed. -/
def createReadPhase (st : St) (patientId doctorId : Nat) (date : Int)
    (dur : Option Nat) : Option ApiErr :=
  if !(st.patients.contains patientId) then
    some (.notFound404 "Patient not found")
  else
    match findUser st.users doctorId with
    | none => some (.notFound404 "Doctor not found")
    | some doctor =>
      if doctor.role ≠ "doctor" ∨ doctor.status ≠ "active" then
        some (.notFound404 "Doctor not found")
      else if checkAvailability st.appts doctorId date (checkDurOf dur) none then
        none
      else
        some .conflict409

/-- The row `Appointment.create` inserts: the request fields, the generated
appointment number, the fresh key, and the schema defaults
(`status = 'scheduled'`, `duration_minutes = 30` when absent). -/
def newApptOf (y m : Nat) (st : St) (patientId doctorId : Nat) (date : Int)
    (dur : Option Nat) (ty : String) (creator : Nat) : Appt :=
  { id := st.nextId
    patientId := patientId
    doctorId := doctorId
    date := date
    durationMinutes := dur.getD 30
    type := ty
    status := "scheduled"
    number := genAppointmentNumber y m (st.appts.map (fun a => a.number))
    createdBy := creator }

/-- Write phase of the create handler (`Appointment.create`): insert the new
row and advance the key supply. -/
def createWritePhase (y m : Nat) (st : St) (patientId doctorId : Nat)
    (date : Int) (dur : Option Nat) (ty : String) (creator : Nat) : St :=
  { st with
    appts := newApptOf y m st patientId doctorId date dur ty creator :: st.appts
    nextId := st.nextId + 1 }

/-- Model of `AppointmentController.createAppointment`: the read phase followed, on
success, by the write phase; returns the created row. `y m` is the calendar
month of the generation instant (`new Date()`). -/
def createAppointment (y m : Nat) (st : St) (patientId doctorId : Nat)
    (date : Int) (dur : Option Nat) (ty : String) (creator : Nat) :
    Except ApiErr (Appt × St) :=
  match createReadPhase st patientId doctorId date dur with
  | some e => .error e
  | none =>
    .ok (newApptOf y m st patientId doctorId date dur ty creator,
      createWritePhase y m st patientId doctorId date dur ty creator)

/-- The body of a PUT update request (the fields the handler interprets
beyond free-text pass-through). -/
structure UpdateReq where
  date : Option Int := none
  durationMinutes : Option Nat := none
  status : Option String := none
deriving DecidableEq

/-- Model of `updateData.appointment_date || updateData.duration_minutes`: the update
handler re-checks availability only when a date is supplied or a non-zero
(truthy) duration is supplied. -/
def needsCheck (u : UpdateReq) : Bool :=
  u.date.isSome ||
    (match u.durationMinutes with
     | some (_ + 1) => true
     | _ => false)

/-- The duration passed to the availability check on update:
`updateData.duration_minutes || existingAppointment.duration_minutes`. -/
def updCheckDur (u : UpdateReq) (existing : Appt) : Nat :=
  match u.durationMinutes with
  | some (k + 1) => k + 1
  | _ => existing.durationMinutes

/-- Merge the update body into a row, with the handler's status `switch`
stamping the matching lifecycle timestamp (and `cancelled_by` for a
cancellation); statuses outside the four cases stamp nothing. -/
def applyStamp (a : Appt) (u : UpdateReq) (now : Int) (actor : Nat) : Appt :=
  { a with
    date := u.date.getD a.date
    durationMinutes := u.durationMinutes.getD a.durationMinutes
    status := u.status.getD a.status
    confirmedAt := if u.status = some "confirmed" then some now else a.confirmedAt
    startedAt := if u.status = some "in_progress" then some now else a.startedAt
    completedAt := if u.status = some "completed" then some now else a.completedAt
    cancelledAt := if u.status = some "cancelled" then some now else a.cancelledAt
    cancelledBy := if u.status = some "cancelled" then some actor else a.cancelledBy }

/-- Model of `AppointmentController.updateAppointment`: 404 when the id is absent;
when a date or truthy duration is supplied, re-check availability excluding
the appointment's own id and fail 409 on conflict; then persist the merged
row (no transition validation of any kind). -/
def updateAppointment (st : St) (id : Nat) (u : UpdateReq) (now : Int)
    (actor : Nat) : Except ApiErr St :=
  match findAppt st.appts id with
  | none => .error (.notFound404 "Appointment not found")
  | some existing =>
    if needsCheck u then
      if checkAvailability st.appts existing.doctorId
          (u.date.getD existing.date) (updCheckDur u existing) (some id) then
        .ok { st with appts := st.appts.map (fun a =>
          if a.id == id then applyStamp a u now actor else a) }
      else
        .error .conflict409
    else
      .ok { st with appts := st.appts.map (fun a =>
        if a.id == id then applyStamp a u now actor else a) }

/-- Model of `cancellation_reason || 'No reason provided'` (absent and the falsy
empty string both give the default). -/
def resolveReason (r : Option String) : String :=
  match r with
  | some s => if s = "" then "No reason provided" else s
  | none => "No reason provided"

/-- Model of `AppointmentController.cancelAppointment`: 404 when absent, 400 when the
row is already cancelled, otherwise persist status `'cancelled'` with the
cancellation stamp, actor and reason (the row is updated, never deleted). -/
def cancelAppointment (st : St) (id : Nat) (reason : Option String)
    (now : Int) (actor : Nat) : Except ApiErr St :=
  match findAppt st.appts id with
  | none => .error (.notFound404 "Appointment not found")
  | some existing =>
    if existing.status = "cancelled" then
      .error .alreadyCancelled400
    else
      .ok { st with appts := st.appts.map (fun a =>
        if a.id == id then
          { a with
            status := "cancelled"
            cancelledAt := some now
            cancelledBy := some actor
            cancellationReason := some (resolveReason reason) }
        else a) }

/-- One exposed mutation request. -/
inductive Op where
  | create (y m : Nat) (patientId doctorId : Nat) (date : Int)
      (dur : Option Nat) (ty : String) (creator : Nat)
  | update (id : Nat) (u : UpdateReq) (now : Int) (actor : Nat)
  | cancel (id : Nat) (reason : Option String) (now : Int) (actor : Nat)
deriving DecidableEq

/-- Execute one request against the store; a failed request leaves the store
unchanged (the handlers return an error response before any write). -/
def applyOp (st : St) : Op → St
  | .create y m p d date dur ty c =>
    match createAppointment y m st p d date dur ty c with
    | .ok (_, st') => st'
    | .error _ => st
  | .update id u now actor =>
    match updateAppointment st id u now actor with
    | .ok st' => st'
    | .error _ => st
  | .cancel id r now actor =>
    match cancelAppointment st id r now actor with
    | .ok st' => st'
    | .error _ => st

/-- A sequential execution of requests. -/
def runOps (st : St) (ops : List Op) : St := ops.foldl applyOp st

/-- The spec's data-model invariant: for a given doctor, no two appointments
in non-terminal status have overlapping half-open time windows. -/
def NoOverlapInv (st : St) : Prop :=
  ∀ a ∈ st.appts, ∀ b ∈ st.appts, a.id ≠ b.id → a.doctorId = b.doctorId →
    activeStatus a.status = true → activeStatus b.status = true →
    ¬ overlapHalf a.date (a.date + (a.durationMinutes : Int)) b.date
        (b.date + (b.durationMinutes : Int))

/-- Store well-formedness: distinct keys below the key supply, and positive
durations (the schema validates 15–240 minutes, default 30). -/
def WFSt (st : St) : Prop :=
  (st.appts.map (fun a => a.id)).Nodup ∧
  (∀ a ∈ st.appts, a.id < st.nextId) ∧
  (∀ a ∈ st.appts, 0 < a.durationMinutes)

/-- Requests as the validation layer admits them: durations, when supplied,
are positive (the schema requires 15–240), and an update supplies a date or
a duration, or does not set a status that re-occupies the calendar
(non-terminal); the excluded case is exactly the status-only reactivation
of a terminal appointment. -/
def opOKB : Op → Bool
  | .create _ _ _ _ _ dur _ _ =>
    match dur with
    | some k => decide (0 < k)
    | none => true
  | .update _ u _ _ =>
    (match u.durationMinutes with
     | some k => decide (0 < k)
     | none => true) &&
    (u.date.isSome || u.durationMinutes.isSome ||
      (match u.status with
       | none => true
       | some s => !(activeStatus s)))
  | .cancel _ _ _ _ => true

/-- Propositional form of `opOKB`. -/
def opOK (o : Op) : Prop := opOKB o = true

instance (o : Op) : Decidable (opOK o) := by
  unfold opOK; infer_instance

deriving instance DecidableEq for Except

/-- A supplied duration, when present, is positive (the validation schemas
require 15–240 minutes). -/
def durOK : Option Nat → Prop
  | some k => 0 < k
  | none => True

/-- An update's status field, viewed by the admissibility condition: absent,
or a status outside the non-terminal set. -/
def statusTerminalOK : Option String → Prop
  | none => True
  | some s => activeStatus s = false

instance : (d : Option Nat) → Decidable (durOK d)
  | none => .isTrue trivial
  | some k => Nat.decLt 0 k

instance : (s : Option String) → Decidable (statusTerminalOK s)
  | none => .isTrue trivial
  | some s => instDecidableEqBool (activeStatus s) false

instance (st : St) : Decidable (NoOverlapInv st) := by
  unfold NoOverlapInv; infer_instance

instance (st : St) : Decidable (WFSt st) := by
  unfold WFSt; infer_instance

/-- The row transformation the cancel handler persists. -/
def cancelStamp (reason : Option String) (now : Int) (actor : Nat)
    (a : Appt) : Appt :=
  { a with
    status := "cancelled"
    cancelledAt := some now
    cancelledBy := some actor
    cancellationReason := some (resolveReason reason) }

/-! ### Concrete stores for the spec scenarios -/

/-- Doctor 1's 09:00–09:30 appointment (minutes of day: 540–570). -/
def demoAppt : Appt :=
  { id := 1, patientId := 1, doctorId := 1, date := 540, durationMinutes := 30,
    type := "consultation", status := "scheduled", number := "A2024030001" }

/-- A store with one scheduled appointment for doctor 1. -/
def schedSt : St :=
  { appts := [demoAppt]
    patients := [1]
    users := [{ id := 2, role := "doctor", status := "active" }]
    nextId := 2 }

/-- A completed appointment. -/
def completedAppt : Appt :=
  { id := 1, patientId := 1, doctorId := 1, date := 540, durationMinutes := 30,
    type := "consultation", status := "completed", completedAt := some 570,
    number := "A2024030001" }

/-- A store holding one completed appointment. -/
def completedSt : St :=
  { appts := [completedAppt]
    patients := [1]
    users := [{ id := 2, role := "doctor", status := "active" }]
    nextId := 2 }

/-- A store where appointment 1 is cancelled and appointment 2 occupies the
same window of the same doctor (a state every operation can reach). -/
def reactivateSt : St :=
  { appts := [
      { id := 1, patientId := 1, doctorId := 1, date := 0,
        durationMinutes := 30, type := "checkup", status := "cancelled",
        cancelledAt := some 5, number := "A2024030001" },
      { id := 2, patientId := 2, doctorId := 1, date := 0,
        durationMinutes := 30, type := "checkup", status := "scheduled",
        number := "A2024030002" }]
    patients := [1, 2]
    users := [{ id := 7, role := "doctor", status := "active" }]
    nextId := 3 }

/-- The status-only PUT body that moves appointment 1 back to `'scheduled'`
(admitted by `appointmentUpdateSchema`). -/
def reactivateOp : Op :=
  .update 1 { date := none, durationMinutes := none, status := some "scheduled" }
    100 7

/-- A full reschedule body: new date, duration and a status, all supplied. -/
def rescheduleBody : UpdateReq :=
  { date := some 90, durationMinutes := some 30, status := some "scheduled" }

/-- A store whose only user with id 2 is an active nurse. -/
def nurseSt : St :=
  { appts := []
    patients := [1]
    users := [{ id := 2, role := "nurse", status := "active" }]
    nextId := 1 }

/-- A store with no user record at all for the requested doctor. -/
def noDoctorSt : St :=
  { appts := []
    patients := [1]
    users := []
    nextId := 1 }

/-- An empty schedule with one active doctor and two patients. -/
def freeSt : St :=
  { appts := []
    patients := [1, 2]
    users := [{ id := 3, role := "doctor", status := "active" }]
    nextId := 10 }

/-- Whether a handler outcome is a success. -/
def okState : Except ApiErr St → Bool
  | .ok _ => true
  | .error _ => false

/-- The store after the cancel handler succeeds on `id`. -/
def cancelledSt (st : St) (id : Nat) (reason : Option String) (now : Int)
    (actor : Nat) : St :=
  { st with appts := st.appts.map (fun x =>
      if x.id == id then cancelStamp reason now actor x else x) }

/-- The status-only body requesting status `s`. -/
def statusOnly (s : String) : UpdateReq :=
  { date := none, durationMinutes := none, status := some s }

/-- A PUT body that only moves the start time, to 09:15. -/
def rescheduleSelf : UpdateReq :=
  { date := some 555, durationMinutes := none, status := none }

/-! ### Theorems -/

/-- With positive durations, the code's three-branch test agrees with the
spec's single half-open overlap test. -/
theorem overlapCodeB_eq_overlapHalf (s1 s2 : Int) (d1 d2 : Nat)
    (h1 : 0 < d1) (h2 : 0 < d2) :
    overlapCodeB s2 (s2 + (d2 : Int)) s1 (s1 + (d1 : Int)) = true ↔
      overlapHalf s1 (s1 + (d1 : Int)) s2 (s2 + (d2 : Int)) := by
  unfold overlapCodeB overlapHalf
  simp only [Bool.or_eq_true, Bool.and_eq_true, decide_eq_true_eq]
  omega

/-- Characterization of `checkAvailability`: it returns `true` iff no stored
appointment of the doctor, in non-terminal status and not excluded, has a
window overlapping the candidate half-open window. Durations are assumed
positive (the schema validates 15–240 minutes). -/
theorem checkAvailability_iff (appts : List Appt) (doctorId : Nat)
    (date : Int) (dur : Nat) (excl : Option Nat)
    (hdur : 0 < dur) (hall : ∀ a ∈ appts, 0 < a.durationMinutes) :
    checkAvailability appts doctorId date dur excl = true ↔
      ∀ a ∈ appts, a.doctorId = doctorId → activeStatus a.status = true →
        (∀ x, excl = some x → a.id ≠ x) →
        ¬ overlapHalf date (date + (dur : Int)) a.date
            (a.date + (a.durationMinutes : Int)) := by
  unfold checkAvailability
  rcases excl with _ | x
  · simp only [beq_iff_eq, List.length_eq_zero, List.filter_eq_nil_iff,
      Bool.and_eq_true, not_and, and_true]
    constructor
    · intro h a ha hdoc hst _ hov
      exact h a ha ⟨hdoc, hst⟩
        ((overlapCodeB_eq_overlapHalf date a.date dur a.durationMinutes hdur
          (hall a ha)).mpr hov)
    · intro h a ha hconj hov
      exact h a ha hconj.1 hconj.2 (fun x hx => by cases hx)
        ((overlapCodeB_eq_overlapHalf date a.date dur a.durationMinutes hdur
          (hall a ha)).mp hov)
  · simp only [beq_iff_eq, List.length_eq_zero, List.filter_eq_nil_iff,
      Bool.and_eq_true, not_and, bne_iff_ne, ne_eq]
    constructor
    · intro h a ha hdoc hst hexcl hov
      exact h a ha ⟨⟨hdoc, hst⟩,
        (overlapCodeB_eq_overlapHalf date a.date dur a.durationMinutes hdur
          (hall a ha)).mpr hov⟩ (hexcl x rfl)
    · intro h a ha hconj hne
      rcases hconj with ⟨⟨hdoc, hst⟩, hov⟩
      exact h a ha hdoc hst (fun y hy => by cases hy; exact hne)
        ((overlapCodeB_eq_overlapHalf date a.date dur a.durationMinutes hdur
          (hall a ha)).mp hov)

/-! ### Supporting lemmas on the store operations -/

theorem overlapHalf_comm (s1 e1 s2 e2 : Int) :
    overlapHalf s1 e1 s2 e2 ↔ overlapHalf s2 e2 s1 e1 := by
  unfold overlapHalf; exact and_comm

theorem findAppt_eq_some {appts : List Appt} {id : Nat} {a : Appt}
    (h : findAppt appts id = some a) : a ∈ appts ∧ a.id = id := by
  unfold findAppt at h
  refine ⟨List.mem_of_find?_eq_some h, ?_⟩
  have := List.find?_some h
  simpa using this

theorem applyStamp_id (a : Appt) (u : UpdateReq) (now : Int) (actor : Nat) :
    (applyStamp a u now actor).id = a.id := rfl

theorem applyStamp_doctorId (a : Appt) (u : UpdateReq) (now : Int) (actor : Nat) :
    (applyStamp a u now actor).doctorId = a.doctorId := rfl

theorem applyStamp_date (a : Appt) (u : UpdateReq) (now : Int) (actor : Nat) :
    (applyStamp a u now actor).date = u.date.getD a.date := rfl

theorem applyStamp_dur (a : Appt) (u : UpdateReq) (now : Int) (actor : Nat) :
    (applyStamp a u now actor).durationMinutes =
      u.durationMinutes.getD a.durationMinutes := rfl

theorem applyStamp_status (a : Appt) (u : UpdateReq) (now : Int) (actor : Nat) :
    (applyStamp a u now actor).status = u.status.getD a.status := rfl

theorem applyStamp_none (a : Appt) (now : Int) (actor : Nat) :
    applyStamp a { date := none, durationMinutes := none, status := none }
      now actor = a := rfl

/-- Updating by key preserves the list of keys when the row transformation
preserves the key. -/
theorem map_update_ids (l : List Appt) (id : Nat) (g : Appt → Appt)
    (hg : ∀ a, (g a).id = a.id) :
    (l.map (fun a => if a.id == id then g a else a)).map (fun a => a.id) =
      l.map (fun a => a.id) := by
  rw [List.map_map]
  refine List.map_congr_left ?_
  intro a _
  by_cases h : (a.id == id) = true
  · simp only [Function.comp_apply, h, if_pos]
    exact hg a
  · simp only [Function.comp_apply, h, if_neg, Bool.false_eq_true,
      not_false_eq_true]

/-- In a list with distinct keys, rows are determined by their key. -/
theorem nodup_key_inj {l : List Appt}
    (h : (l.map (fun a => a.id)).Nodup) {a b : Appt}
    (ha : a ∈ l) (hb : b ∈ l) (hid : a.id = b.id) : a = b :=
  List.inj_on_of_nodup_map h ha hb hid

/-- Finding by key after updating by key returns the transformed row. -/
theorem findAppt_map_update {l : List Appt} {id : Nat} {a : Appt}
    (g : Appt → Appt) (hg : ∀ x, (g x).id = x.id)
    (h : findAppt l id = some a) :
    findAppt (l.map (fun x => if x.id == id then g x else x)) id =
      some (g a) := by
  unfold findAppt at h ⊢
  induction l with
  | nil => simp at h
  | cons hd tl ih =>
    by_cases hhd : (hd.id == id) = true
    · rw [List.find?] at h
      rw [hhd] at h
      cases h
      have hgid : ((g a).id == id) = true := by rw [hg a]; exact hhd
      simp only [List.map_cons, hhd, if_pos, List.find?, hgid]
    · rw [List.find?] at h
      rw [Bool.of_not_eq_true hhd] at h
      simp only [List.map_cons, hhd, if_neg, Bool.false_eq_true,
        not_false_eq_true, List.find?]
      exact ih h

theorem checkDurOf_pos (dur : Option Nat) : 0 < checkDurOf dur := by
  rcases dur with _ | k
  · decide
  · cases k
    · decide
    · exact Nat.succ_pos _

theorem checkDurOf_eq_getD {dur : Option Nat}
    (h : durOK dur) :
    checkDurOf dur = dur.getD 30 := by
  unfold checkDurOf
  rcases dur with _ | k
  · rfl
  · cases k
    · simp [durOK] at h
    · rfl

theorem updCheckDur_eq_getD {u : UpdateReq} {a : Appt}
    (h : durOK u.durationMinutes) :
    updCheckDur u a = u.durationMinutes.getD a.durationMinutes := by
  unfold updCheckDur
  rcases hu : u.durationMinutes with _ | k
  · rfl
  · rw [hu] at h
    cases k
    · simp [durOK] at h
    · rfl

theorem updCheckDur_pos {u : UpdateReq} {a : Appt}
    (ha : 0 < a.durationMinutes) : 0 < updCheckDur u a := by
  rcases hu : u.durationMinutes with _ | k
  · unfold updCheckDur
    rw [hu]
    exact ha
  · unfold updCheckDur
    rw [hu]
    cases k
    · exact ha
    · exact Nat.succ_pos _

/-- A passing create read phase passed its availability check. -/
theorem createReadPhase_none_avail {st : St} {patientId doctorId : Nat}
    {date : Int} {dur : Option Nat}
    (h : createReadPhase st patientId doctorId date dur = none) :
    checkAvailability st.appts doctorId date (checkDurOf dur) none = true := by
  unfold createReadPhase at h
  split at h
  · cases h
  · split at h
    · cases h
    · split at h
      · cases h
      · split at h
        · assumption
        · cases h

theorem updateAppointment_of_find_none {st : St} {id : Nat} {u : UpdateReq}
    {now : Int} {actor : Nat} (h : findAppt st.appts id = none) :
    updateAppointment st id u now actor =
      .error (.notFound404 "Appointment not found") := by
  unfold updateAppointment
  rw [h]

theorem cancelAppointment_of_find_none {st : St} {id : Nat}
    {reason : Option String} {now : Int} {actor : Nat}
    (h : findAppt st.appts id = none) :
    cancelAppointment st id reason now actor =
      .error (.notFound404 "Appointment not found") := by
  unfold cancelAppointment
  rw [h]

theorem cancelAppointment_of_cancelled {st : St} {id : Nat}
    {reason : Option String} {now : Int} {actor : Nat} {existing : Appt}
    (h : findAppt st.appts id = some existing)
    (hs : existing.status = "cancelled") :
    cancelAppointment st id reason now actor = .error .alreadyCancelled400 := by
  unfold cancelAppointment
  rw [h]
  simp [hs]

theorem cancelAppointment_of_ok {st : St} {id : Nat}
    {reason : Option String} {now : Int} {actor : Nat} {existing : Appt}
    (h : findAppt st.appts id = some existing)
    (hs : existing.status ≠ "cancelled") :
    cancelAppointment st id reason now actor =
      .ok { st with appts := st.appts.map (fun a =>
        if a.id == id then cancelStamp reason now actor a else a) } := by
  unfold cancelAppointment cancelStamp
  rw [h]
  simp [hs]

/-- Cancellation preserves well-formedness and the no-overlap invariant: it
only moves a row to the terminal status `'cancelled'`, leaving every window
unchanged. -/
theorem cancel_preserves (st : St) (id : Nat) (reason : Option String)
    (now : Int) (actor : Nat) (hwf : WFSt st) (hinv : NoOverlapInv st) :
    WFSt (applyOp st (.cancel id reason now actor)) ∧
      NoOverlapInv (applyOp st (.cancel id reason now actor)) := by
  simp only [applyOp]
  cases hf : findAppt st.appts id with
  | none => rw [cancelAppointment_of_find_none hf]; exact ⟨hwf, hinv⟩
  | some existing =>
    by_cases hs : existing.status = "cancelled"
    · rw [cancelAppointment_of_cancelled hf hs]
      exact ⟨hwf, hinv⟩
    · rw [cancelAppointment_of_ok hf hs]
      obtain ⟨hnd, hbound, hdurs⟩ := hwf
      have hgid : ∀ a : Appt, (cancelStamp reason now actor a).id = a.id :=
        fun _ => rfl
      have hids := map_update_ids st.appts id
        (cancelStamp reason now actor) hgid
      constructor
      · refine ⟨?_, ?_, ?_⟩
        · rw [hids]; exact hnd
        · intro a' ha'
          obtain ⟨b, hb, rfl⟩ := List.mem_map.mp ha'
          split
          · exact hbound b hb
          · exact hbound b hb
        · intro a' ha'
          obtain ⟨b, hb, rfl⟩ := List.mem_map.mp ha'
          split
          · exact hdurs b hb
          · exact hdurs b hb
      · intro a' ha' b' hb' hne hdoc hact hbact
        obtain ⟨a0, ha0, rfl⟩ := List.mem_map.mp ha'
        obtain ⟨b0, hb0, rfl⟩ := List.mem_map.mp hb'
        by_cases hA : (a0.id == id) = true
        · exfalso
          rw [if_pos hA] at hact
          simp [cancelStamp, activeStatus] at hact
        · by_cases hB : (b0.id == id) = true
          · exfalso
            rw [if_pos hB] at hbact
            simp [cancelStamp, activeStatus] at hbact
          · rw [if_neg hA] at hne hdoc hact ⊢
            rw [if_neg hB] at hne hdoc hbact ⊢
            exact hinv a0 ha0 b0 hb0 hne hdoc hact hbact

theorem createAppointment_of_read_err {y m : Nat} {st : St}
    {patientId doctorId : Nat} {date : Int} {dur : Option Nat} {ty : String}
    {creator : Nat} {e : ApiErr}
    (h : createReadPhase st patientId doctorId date dur = some e) :
    createAppointment y m st patientId doctorId date dur ty creator =
      .error e := by
  unfold createAppointment
  rw [h]

theorem createAppointment_of_read_ok {y m : Nat} {st : St}
    {patientId doctorId : Nat} {date : Int} {dur : Option Nat} {ty : String}
    {creator : Nat}
    (h : createReadPhase st patientId doctorId date dur = none) :
    createAppointment y m st patientId doctorId date dur ty creator =
      .ok (newApptOf y m st patientId doctorId date dur ty creator,
        createWritePhase y m st patientId doctorId date dur ty creator) := by
  unfold createAppointment
  rw [h]

/-- Creation preserves well-formedness and the no-overlap invariant: the
inserted row carries a fresh key, status `'scheduled'`, and a window the
availability check found free of every non-terminal window of the doctor. -/
theorem create_preserves (st : St) (y m patientId doctorId : Nat)
    (date : Int) (dur : Option Nat) (ty : String) (creator : Nat)
    (hwf : WFSt st) (hinv : NoOverlapInv st)
    (hdur : durOK dur) :
    WFSt (applyOp st (.create y m patientId doctorId date dur ty creator)) ∧
      NoOverlapInv
        (applyOp st (.create y m patientId doctorId date dur ty creator)) := by
  simp only [applyOp]
  cases hr : createReadPhase st patientId doctorId date dur with
  | some e => rw [createAppointment_of_read_err hr]; exact ⟨hwf, hinv⟩
  | none =>
    rw [createAppointment_of_read_ok hr]
    obtain ⟨hnd, hbound, hdurs⟩ := hwf
    have hgetD : 0 < dur.getD 30 := by
      rcases dur with _ | k
      · decide
      · exact hdur
    have hd30 : checkDurOf dur = dur.getD 30 := checkDurOf_eq_getD hdur
    have havail := createReadPhase_none_avail hr
    rw [hd30] at havail
    have hchar := (checkAvailability_iff st.appts doctorId date
      (dur.getD 30) none hgetD hdurs).mp havail
    constructor
    · refine ⟨?_, ?_, ?_⟩
      · simp only [createWritePhase, List.map_cons]
        refine List.Nodup.cons ?_ hnd
        intro hmem
        obtain ⟨b, hb, hbid⟩ := List.mem_map.mp hmem
        have := hbound b hb
        simp only [newApptOf] at hbid
        omega
      · intro a ha
        rcases List.mem_cons.mp ha with rfl | ha'
        · simp [newApptOf, createWritePhase]
        · have := hbound a ha'
          simp only [createWritePhase]
          omega
      · intro a ha
        rcases List.mem_cons.mp ha with rfl | ha'
        · simpa [newApptOf] using hgetD
        · exact hdurs a ha'
    · intro a ha b hb hne hdoc hact hbact
      rcases List.mem_cons.mp ha with rfl | ha' <;>
        rcases List.mem_cons.mp hb with rfl | hb'
      · exact absurd rfl hne
      · have hbd : b.doctorId = doctorId := by
          simp only [newApptOf] at hdoc
          exact hdoc.symm
        have := hchar b hb' hbd hbact (fun x hx => by cases hx)
        simpa [newApptOf] using this
      · have had : a.doctorId = doctorId := by
          simp only [newApptOf] at hdoc
          exact hdoc
        have := hchar a ha' had hact (fun x hx => by cases hx)
        rw [overlapHalf_comm]
        simpa [newApptOf] using this
      · exact hinv a ha' b hb' hne hdoc hact hbact

theorem updateAppointment_of_check_ok {st : St} {id : Nat} {u : UpdateReq}
    {now : Int} {actor : Nat} {existing : Appt}
    (h : findAppt st.appts id = some existing) (hn : needsCheck u = true)
    (hc : checkAvailability st.appts existing.doctorId
      (u.date.getD existing.date) (updCheckDur u existing) (some id) = true) :
    updateAppointment st id u now actor =
      .ok { st with appts := st.appts.map (fun a =>
        if a.id == id then applyStamp a u now actor else a) } := by
  unfold updateAppointment
  rw [h]
  simp [hn, hc]

theorem updateAppointment_of_check_fail {st : St} {id : Nat} {u : UpdateReq}
    {now : Int} {actor : Nat} {existing : Appt}
    (h : findAppt st.appts id = some existing) (hn : needsCheck u = true)
    (hc : checkAvailability st.appts existing.doctorId
      (u.date.getD existing.date) (updCheckDur u existing) (some id) = false) :
    updateAppointment st id u now actor = .error .conflict409 := by
  unfold updateAppointment
  rw [h]
  simp [hn, hc]

theorem updateAppointment_of_no_check {st : St} {id : Nat} {u : UpdateReq}
    {now : Int} {actor : Nat} {existing : Appt}
    (h : findAppt st.appts id = some existing) (hn : needsCheck u = false) :
    updateAppointment st id u now actor =
      .ok { st with appts := st.appts.map (fun a =>
        if a.id == id then applyStamp a u now actor else a) } := by
  unfold updateAppointment
  rw [h]
  simp [hn]

/-- The mapped store of an update keeps well-formedness: keys are untouched
and persisted durations stay positive for admissible bodies. -/
theorem update_map_wf (st : St) (id : Nat) (u : UpdateReq) (now : Int)
    (actor : Nat) (hwf : WFSt st)
    (hdm : durOK u.durationMinutes) :
    WFSt { st with appts := st.appts.map (fun a =>
      if a.id == id then applyStamp a u now actor else a) } := by
  obtain ⟨hnd, hbound, hdurs⟩ := hwf
  have hids := map_update_ids st.appts id
    (fun a => applyStamp a u now actor) (fun a => applyStamp_id a u now actor)
  refine ⟨?_, ?_, ?_⟩
  · show ((st.appts.map _).map _).Nodup
    rw [hids]
    exact hnd
  · intro a' ha'
    obtain ⟨b, hb, rfl⟩ := List.mem_map.mp ha'
    split
    · rw [applyStamp_id]
      exact hbound b hb
    · exact hbound b hb
  · intro a' ha'
    obtain ⟨b, hb, rfl⟩ := List.mem_map.mp ha'
    split
    · rw [applyStamp_dur]
      rcases hu : u.durationMinutes with _ | k
      · exact hdurs b hb
      · rw [hu] at hdm
        simpa [durOK] using hdm
    · exact hdurs b hb

/-- Updates with an admissible body preserve well-formedness and the
no-overlap invariant: a date/duration change re-runs the availability check
excluding the row's own key, and a status-only change is admissible exactly
when it does not move the row to a non-terminal status. -/
theorem update_preserves (st : St) (id : Nat) (u : UpdateReq) (now : Int)
    (actor : Nat) (hwf : WFSt st) (hinv : NoOverlapInv st)
    (hdm : durOK u.durationMinutes)
    (hok : u.date.isSome = true ∨ u.durationMinutes.isSome = true ∨
      statusTerminalOK u.status) :
    WFSt (applyOp st (.update id u now actor)) ∧
      NoOverlapInv (applyOp st (.update id u now actor)) := by
  simp only [applyOp]
  cases hf : findAppt st.appts id with
  | none => rw [updateAppointment_of_find_none hf]; exact ⟨hwf, hinv⟩
  | some existing =>
    obtain ⟨hmem, hid⟩ := findAppt_eq_some hf
    have hnd := hwf.1
    have hdurs := hwf.2.2
    by_cases hn : needsCheck u = true
    · cases hc : checkAvailability st.appts existing.doctorId
        (u.date.getD existing.date) (updCheckDur u existing) (some id) with
      | false => rw [updateAppointment_of_check_fail hf hn hc]; exact ⟨hwf, hinv⟩
      | true =>
        rw [updateAppointment_of_check_ok hf hn hc]
        refine ⟨update_map_wf st id u now actor hwf hdm, ?_⟩
        have hchar := (checkAvailability_iff st.appts existing.doctorId
          (u.date.getD existing.date) (updCheckDur u existing) (some id)
          (updCheckDur_pos (hdurs existing hmem)) hdurs).mp hc
        intro a' ha' b' hb' hne hdoc hact hbact
        obtain ⟨a0, ha0, rfl⟩ := List.mem_map.mp ha'
        obtain ⟨b0, hb0, rfl⟩ := List.mem_map.mp hb'
        by_cases hA : (a0.id == id) = true <;> by_cases hB : (b0.id == id) = true
        · exfalso
          apply hne
          rw [if_pos hA, if_pos hB,
            nodup_key_inj hnd ha0 hb0 (by
              rw [beq_iff_eq] at hA hB
              rw [hA, hB])]
        · have ha0ex : a0 = existing := nodup_key_inj hnd ha0 hmem (by
            rw [beq_iff_eq] at hA
            rw [hA, hid])
          subst ha0ex
          rw [if_pos hA] at hdoc ⊢
          rw [if_neg hB] at hdoc hbact ⊢
          rw [applyStamp_date, applyStamp_dur, updCheckDur_eq_getD hdm] at *
          refine hchar b0 hb0 ?_ hbact ?_
          · rw [applyStamp_doctorId] at hdoc
            exact hdoc.symm
          · intro x hx
            cases hx
            rw [beq_iff_eq] at hB
            exact fun hcontra => hB hcontra
        · have hb0ex : b0 = existing := nodup_key_inj hnd hb0 hmem (by
            rw [beq_iff_eq] at hB
            rw [hB, hid])
          subst hb0ex
          rw [if_pos hB] at hdoc ⊢
          rw [if_neg hA] at hdoc hact ⊢
          rw [applyStamp_date, applyStamp_dur, updCheckDur_eq_getD hdm] at *
          rw [overlapHalf_comm]
          refine hchar a0 ha0 ?_ hact ?_
          · rw [applyStamp_doctorId] at hdoc
            exact hdoc
          · intro x hx
            cases hx
            rw [beq_iff_eq] at hA
            exact fun hcontra => hA hcontra
        · rw [if_neg hA] at hne hdoc hact ⊢
          rw [if_neg hB] at hne hdoc hbact ⊢
          exact hinv a0 ha0 b0 hb0 hne hdoc hact hbact
    · have hn' : needsCheck u = false := by
        cases hval : needsCheck u
        · rfl
        · exact absurd hval hn
      rw [updateAppointment_of_no_check hf hn']
      have hdate : u.date = none := by
        rcases hu : u.date with _ | d
        · rfl
        · exact absurd (by simp [needsCheck, hu]) hn
      have hdm0 : u.durationMinutes = none := by
        rcases hu : u.durationMinutes with _ | k
        · rfl
        · rw [hu] at hdm
          cases k
          · simp [durOK] at hdm
          · exact absurd (by simp [needsCheck, hu]) hn
      rw [hdate, hdm0] at hok
      simp only [Option.isSome_none, Bool.false_eq_true, false_or] at hok
      rcases hstat : u.status with _ | s
      · have hu : u = { date := none, durationMinutes := none, status := none } := by
          rcases u with ⟨d, dm, s'⟩
          dsimp at hdate hdm0 hstat
          rw [hdate, hdm0, hstat]
        subst hu
        have hmapid : (st.appts.map (fun a =>
            if a.id == id then
              applyStamp a { date := none, durationMinutes := none, status := none }
                now actor
            else a)) = st.appts := by
          have hcong : ∀ a ∈ st.appts,
              (if a.id == id then
                applyStamp a
                  { date := none, durationMinutes := none, status := none }
                  now actor
              else a) = a := by
            intro a _
            split
            · exact applyStamp_none a now actor
            · rfl
          rw [List.map_congr_left hcong]
          exact List.map_id' st.appts
        rw [hmapid]
        exact ⟨hwf, hinv⟩
      · have hsact : activeStatus s = false := by
          rw [hstat] at hok
          exact hok
        refine ⟨update_map_wf st id u now actor hwf hdm, ?_⟩
        intro a' ha' b' hb' hne hdoc hact hbact
        obtain ⟨a0, ha0, rfl⟩ := List.mem_map.mp ha'
        obtain ⟨b0, hb0, rfl⟩ := List.mem_map.mp hb'
        by_cases hA : (a0.id == id) = true
        · exfalso
          rw [if_pos hA, applyStamp_status, hstat] at hact
          simp only [Option.getD_some] at hact
          rw [hact] at hsact
          cases hsact
        · by_cases hB : (b0.id == id) = true
          · exfalso
            rw [if_pos hB, applyStamp_status, hstat] at hbact
            simp only [Option.getD_some] at hbact
            rw [hbact] at hsact
            cases hsact
          · rw [if_neg hA] at hne hdoc hact ⊢
            rw [if_neg hB] at hne hdoc hbact ⊢
            exact hinv a0 ha0 b0 hb0 hne hdoc hact hbact

/-! ### Admissibility extraction lemmas -/

theorem opOK_create {y m p d : Nat} {date : Int} {dur : Option Nat}
    {ty : String} {c : Nat} (h : opOK (.create y m p d date dur ty c)) :
    durOK dur := by
  unfold opOK opOKB at h
  rcases dur with _ | k
  · trivial
  · have hk : 0 < k := of_decide_eq_true h
    exact hk

theorem opOK_update_dur {id : Nat} {u : UpdateReq} {now : Int} {actor : Nat}
    (h : opOK (.update id u now actor)) :
    durOK u.durationMinutes := by
  unfold opOK opOKB at h
  rw [Bool.and_eq_true] at h
  rcases hu : u.durationMinutes with _ | k
  · trivial
  · have h1 := h.1
    rw [hu] at h1
    have hk : 0 < k := of_decide_eq_true h1
    exact hk

theorem opOK_update_status {id : Nat} {u : UpdateReq} {now : Int} {actor : Nat}
    (h : opOK (.update id u now actor)) :
    u.date.isSome = true ∨ u.durationMinutes.isSome = true ∨
      statusTerminalOK u.status := by
  unfold opOK opOKB at h
  rw [Bool.and_eq_true] at h
  have h2 := h.2
  rw [Bool.or_eq_true, Bool.or_eq_true] at h2
  rcases h2 with h12 | h3
  · rcases h12 with ha | hb
    · exact Or.inl ha
    · exact Or.inr (Or.inl hb)
  · refine Or.inr (Or.inr ?_)
    revert h3
    rcases u.status with _ | s
    · intro _
      trivial
    · intro h3
      simpa using h3

/-! ### Claim theorems -/

/-- C1: for every doctor, candidate window with positive duration, and
optional excluded id, `checkAvailability` returns true iff no stored
appointment of that doctor in status scheduled/confirmed/in_progress (and
with a different id than the excluded one, when given) overlaps the
candidate under the half-open test `s1 < e2 AND s2 < e1`; and in the spec's
concrete scenario (doctor 1 booked 09:00–09:30): 09:15 is rejected while a
candidate starting exactly at 09:30 or ending exactly at 09:00 is free. -/
theorem checkAvailability_correct :
    (∀ (appts : List Appt) (doctorId : Nat) (date : Int) (dur : Nat)
        (excl : Option Nat),
      0 < dur → (∀ a ∈ appts, 0 < a.durationMinutes) →
      (checkAvailability appts doctorId date dur excl = true ↔
        ∀ a ∈ appts, a.doctorId = doctorId → activeStatus a.status = true →
          (∀ x, excl = some x → a.id ≠ x) →
          ¬ overlapHalf date (date + (dur : Int)) a.date
              (a.date + (a.durationMinutes : Int)))) ∧
    checkAvailability [demoAppt] 1 555 30 none = false ∧
    checkAvailability [demoAppt] 1 570 30 none = true ∧
    checkAvailability [demoAppt] 1 510 30 none = true := by
  refine ⟨checkAvailability_iff, by decide, by decide, by decide⟩

/-- Witness for C1 at a concrete store and window. -/
theorem checkAvailability_correct_witness :
    checkAvailability [demoAppt] 1 600 30 none = true ↔
      ∀ a ∈ [demoAppt], a.doctorId = 1 → activeStatus a.status = true →
        (∀ x, (none : Option Nat) = some x → a.id ≠ x) →
        ¬ overlapHalf 600 (600 + ((30 : Nat) : Int)) a.date
            (a.date + (a.durationMinutes : Int)) :=
  checkAvailability_correct.1 [demoAppt] 1 600 30 none (by decide) (by decide)

/-- C3: for positive durations, the disjunction of the code's three overlap
sub-cases is logically equivalent to the single half-open test
`s1 < e2 AND s2 < e1`, with no discrepancy at exact boundary instants. -/
theorem overlap_branches_equiv (s1 s2 : Int) (d1 d2 : Nat)
    (h1 : 0 < d1) (h2 : 0 < d2) :
    overlapCodeB s2 (s2 + (d2 : Int)) s1 (s1 + (d1 : Int)) = true ↔
      overlapHalf s1 (s1 + (d1 : Int)) s2 (s2 + (d2 : Int)) := by
  unfold overlapCodeB overlapHalf
  simp only [Bool.or_eq_true, Bool.and_eq_true, decide_eq_true_eq]
  omega

/-- Witness for C3 at a touching-boundary pair of windows. -/
theorem overlap_branches_equiv_witness :
    overlapCodeB 570 600 540 (540 + ((30 : Nat) : Int)) = true ↔
      overlapHalf 540 (540 + ((30 : Nat) : Int)) 570 600 := by
  have h := overlap_branches_equiv 540 570 30 30 (by decide) (by decide)
  simpa using h

/-- C2 counterexample: from a well-formed store satisfying the no-overlap
invariant, the status-only update admitted by `appointmentUpdateSchema`
that moves a cancelled appointment back to `'scheduled'` succeeds without
an availability check and violates the invariant. -/
theorem invariant_broken_by_status_only_update :
    WFSt reactivateSt ∧ NoOverlapInv reactivateSt ∧
      ¬ NoOverlapInv (runOps reactivateSt [reactivateOp]) := by
  decide

/-- C2 (amended): the invariant is preserved by every sequential execution
of create, cancel, and updates that change the date or duration or do not
move a row to a non-terminal status; the excluded status-only reactivation
of a terminal appointment is the one operation shape that can break it. -/
theorem invariant_preserved_by_admissible_ops (ops : List Op) (st : St)
    (hwf : WFSt st) (hinv : NoOverlapInv st) (hops : ∀ o ∈ ops, opOK o) :
    NoOverlapInv (runOps st ops) := by
  suffices h : WFSt (runOps st ops) ∧ NoOverlapInv (runOps st ops) by
    exact h.2
  induction ops generalizing st with
  | nil => exact ⟨hwf, hinv⟩
  | cons o rest ih =>
    have ho := hops o (List.mem_cons_self o rest)
    have hrest : ∀ o' ∈ rest, opOK o' :=
      fun o' h' => hops o' (List.mem_cons_of_mem o h')
    have hstep : WFSt (applyOp st o) ∧ NoOverlapInv (applyOp st o) := by
      cases o with
      | create y m p d date dur ty c =>
        exact create_preserves st y m p d date dur ty c hwf hinv (opOK_create ho)
      | update id u now actor =>
        exact update_preserves st id u now actor hwf hinv
          (opOK_update_dur ho) (opOK_update_status ho)
      | cancel id r now actor =>
        exact cancel_preserves st id r now actor hwf hinv
    show WFSt (runOps (applyOp st o) rest) ∧
      NoOverlapInv (runOps (applyOp st o) rest)
    exact ih (applyOp st o) hstep.1 hstep.2 hrest

/-- Witness for the amended C2 on a concrete admissible sequence. -/
theorem invariant_preserved_by_admissible_ops_witness :
    NoOverlapInv (runOps reactivateSt
      [Op.cancel 2 none 50 7, Op.update 2 rescheduleBody 60 7]) :=
  invariant_preserved_by_admissible_ops
    [Op.cancel 2 none 50 7, Op.update 2 rescheduleBody 60 7]
    reactivateSt (by decide) (by decide) (by decide)

/-- C6 counterexample: requesting `'confirmed'` on an appointment already in
`'completed'` status does not fail — the update handler has no transition
validation: the request succeeds, the stored status becomes `'confirmed'`
(with `confirmed_at` stamped) and the store changes. -/
theorem completed_to_confirmed_succeeds :
    okState (updateAppointment completedSt 1 (statusOnly "confirmed") 600 2)
      = true ∧
    (findAppt (applyOp completedSt
        (.update 1 (statusOnly "confirmed") 600 2)).appts 1).map
      (fun x => x.status) = some "confirmed" ∧
    applyOp completedSt (.update 1 (statusOnly "confirmed") 600 2) ≠
      completedSt := by
  decide

/-- C6 (amended): the update handler performs no reachability validation of
status changes. For every store and stored appointment, a status-only
update to an arbitrary status string succeeds and persists that status,
stamping the matching lifecycle timestamp; no InvalidTransition outcome
exists in the handler. -/
theorem update_applies_any_status (st : St) (id : Nat) (s : String)
    (now : Int) (actor : Nat) (a : Appt)
    (hf : findAppt st.appts id = some a) :
    updateAppointment st id (statusOnly s) now actor =
      .ok { st with appts := st.appts.map (fun x =>
        if x.id == id then applyStamp x (statusOnly s) now actor else x) } ∧
    (findAppt (applyOp st (.update id (statusOnly s) now actor)).appts id).map
      (fun x => x.status) = some s := by
  have hn : needsCheck (statusOnly s) = false := rfl
  have hok := @updateAppointment_of_no_check st id (statusOnly s) now actor
    a hf hn
  refine ⟨hok, ?_⟩
  have hfind := findAppt_map_update
    (fun x => applyStamp x (statusOnly s) now actor)
    (fun x => applyStamp_id x (statusOnly s) now actor) hf
  simp only [applyOp, hok]
  rw [hfind]
  simp [applyStamp_status, statusOnly]

/-- Witness for the amended C6: confirming a completed appointment. -/
theorem update_applies_any_status_witness :
    updateAppointment completedSt 1 (statusOnly "confirmed") 600 2 =
      .ok { completedSt with appts := completedSt.appts.map (fun x =>
        if x.id == 1 then applyStamp x (statusOnly "confirmed") 600 2 else x) } ∧
    (findAppt (applyOp completedSt
        (.update 1 (statusOnly "confirmed") 600 2)).appts 1).map
      (fun x => x.status) = some "confirmed" :=
  update_applies_any_status completedSt 1 "confirmed" 600 2 completedAppt
    (by decide)

/-- C7: cancelling a non-cancelled appointment succeeds, keeps the row (same
row count), and persists status `'cancelled'`, the `cancelled_at` stamp, the
cancelling actor and the resolved reason (the given one, or the default
`"No reason provided"` when omitted); a second cancel fails with the
already-cancelled error and leaves the store unchanged, and so does any
cancel of an already-cancelled appointment. -/
theorem cancel_spec (st : St) (id : Nat) (reason : Option String) (now : Int)
    (actor : Nat) (a : Appt) (hf : findAppt st.appts id = some a) :
    (a.status ≠ "cancelled" →
      cancelAppointment st id reason now actor =
        .ok (cancelledSt st id reason now actor) ∧
      findAppt (cancelledSt st id reason now actor).appts id =
        some (cancelStamp reason now actor a) ∧
      (cancelledSt st id reason now actor).appts.length = st.appts.length ∧
      (∀ r2 n2 ac2,
        cancelAppointment (cancelledSt st id reason now actor) id r2 n2 ac2 =
          .error .alreadyCancelled400 ∧
        applyOp (cancelledSt st id reason now actor) (.cancel id r2 n2 ac2) =
          cancelledSt st id reason now actor)) ∧
    (a.status = "cancelled" →
      cancelAppointment st id reason now actor = .error .alreadyCancelled400 ∧
      applyOp st (.cancel id reason now actor) = st) ∧
    (cancelStamp reason now actor a).status = "cancelled" ∧
    (cancelStamp reason now actor a).cancelledAt = some now ∧
    (cancelStamp reason now actor a).cancelledBy = some actor ∧
    (cancelStamp reason now actor a).cancellationReason =
      some (resolveReason reason) ∧
    resolveReason none = "No reason provided" := by
  have hfind2 : findAppt (cancelledSt st id reason now actor).appts id =
      some (cancelStamp reason now actor a) :=
    findAppt_map_update (cancelStamp reason now actor) (fun _ => rfl) hf
  refine ⟨?_, ?_, rfl, rfl, rfl, rfl, rfl⟩
  · intro hs
    refine ⟨cancelAppointment_of_ok hf hs, hfind2, ?_, ?_⟩
    · exact List.length_map st.appts _
    · intro r2 n2 ac2
      have herr := @cancelAppointment_of_cancelled _ id r2 n2 ac2 _ hfind2 rfl
      exact ⟨herr, by simp [applyOp, herr]⟩
  · intro hs
    have herr := @cancelAppointment_of_cancelled st id reason now actor a
      hf hs
    exact ⟨herr, by simp [applyOp, herr]⟩

/-- Witness for C7: cancelling the completed demo appointment. -/
theorem cancel_spec_witness :
    cancelAppointment completedSt 1 (some "patient request") 700 9 =
      .ok (cancelledSt completedSt 1 (some "patient request") 700 9) ∧
    (∀ r2 n2 ac2,
      cancelAppointment (cancelledSt completedSt 1 (some "patient request")
        700 9) 1 r2 n2 ac2 = .error .alreadyCancelled400) := by
  have h := cancel_spec completedSt 1 (some "patient request") 700 9
    completedAppt (by decide)
  have h1 := h.1 (by decide)
  exact ⟨h1.1, fun r2 n2 ac2 => (h1.2.2.2 r2 n2 ac2).1⟩

/-- C8 counterexample: a request whose doctor reference resolves to an
existing, active user whose role is `'nurse'` fails with exactly the same
error value (HTTP 404, `'Doctor not found'`) as a request whose doctor
reference matches no user at all — there is no distinct InvalidReference
outcome. -/
theorem doctor_errors_not_distinct :
    createAppointment 2024 3 nurseSt 1 2 540 (some 30) "checkup" 5 =
      .error (.notFound404 "Doctor not found") ∧
    createAppointment 2024 3 noDoctorSt 1 2 540 (some 30) "checkup" 5 =
      .error (.notFound404 "Doctor not found") := by
  decide

/-- C8 (amended): the create handler checks, in order: patient existence
(404 `'Patient not found'`), then doctor existence/role/status — where an
absent doctor and an existing but wrong-role or inactive doctor produce the
SAME 404 `'Doctor not found'` error, with no distinct InvalidReference
outcome — then availability (409 on conflict); on success it persists a row
with status `'scheduled'` prepended to the store and returns it; every
failure leaves the store unchanged. -/
theorem create_characterization (y m : Nat) (st : St)
    (patientId doctorId : Nat) (date : Int) (dur : Option Nat) (ty : String)
    (creator : Nat) :
    (st.patients.contains patientId = false →
      createAppointment y m st patientId doctorId date dur ty creator =
        .error (.notFound404 "Patient not found")) ∧
    (st.patients.contains patientId = true →
      (findUser st.users doctorId = none →
        createAppointment y m st patientId doctorId date dur ty creator =
          .error (.notFound404 "Doctor not found")) ∧
      (∀ doc, findUser st.users doctorId = some doc →
        (doc.role ≠ "doctor" ∨ doc.status ≠ "active") →
        createAppointment y m st patientId doctorId date dur ty creator =
          .error (.notFound404 "Doctor not found")) ∧
      (∀ doc, findUser st.users doctorId = some doc → doc.role = "doctor" →
        doc.status = "active" →
        (checkAvailability st.appts doctorId date (checkDurOf dur) none =
            false →
          createAppointment y m st patientId doctorId date dur ty creator =
            .error .conflict409) ∧
        (checkAvailability st.appts doctorId date (checkDurOf dur) none =
            true →
          createAppointment y m st patientId doctorId date dur ty creator =
            .ok (newApptOf y m st patientId doctorId date dur ty creator,
              createWritePhase y m st patientId doctorId date dur ty
                creator) ∧
          (newApptOf y m st patientId doctorId date dur ty creator).status =
            "scheduled" ∧
          (createWritePhase y m st patientId doctorId date dur ty
            creator).appts =
            newApptOf y m st patientId doctorId date dur ty creator ::
              st.appts))) ∧
    (∀ e, createAppointment y m st patientId doctorId date dur ty creator =
        .error e →
      applyOp st (.create y m patientId doctorId date dur ty creator) = st) := by
  refine ⟨?_, ?_, ?_⟩
  · intro h
    apply createAppointment_of_read_err
    unfold createReadPhase
    rw [h, if_pos (show (!false) = true from rfl)]
  · intro hp
    refine ⟨?_, ?_, ?_⟩
    · intro hu
      apply createAppointment_of_read_err
      unfold createReadPhase
      simp only [hp, Bool.not_true, Bool.false_eq_true, if_false, hu]
    · intro doc hu hbad
      apply createAppointment_of_read_err
      unfold createReadPhase
      simp only [hp, Bool.not_true, Bool.false_eq_true, if_false, hu]
      rw [if_pos hbad]
    · intro doc hu hrole hstat
      have hgood : ¬ (¬ doc.role = "doctor" ∨ ¬ doc.status = "active") := by
        simp [hrole, hstat]
      constructor
      · intro hc
        apply createAppointment_of_read_err
        unfold createReadPhase
        simp only [hp, Bool.not_true, Bool.false_eq_true, if_false, hu]
        rw [if_neg hgood, hc]
        rfl
      · intro hc
        refine ⟨createAppointment_of_read_ok ?_, rfl, rfl⟩
        unfold createReadPhase
        simp only [hp, Bool.not_true, Bool.false_eq_true, if_false, hu]
        rw [if_neg hgood, hc]
        rfl
  · intro e he
    simp [applyOp, he]

/-- Witness for the amended C8: a missing patient reference. -/
theorem create_characterization_witness :
    createAppointment 2024 3 nurseSt 99 2 540 (some 30) "checkup" 5 =
      .error (.notFound404 "Patient not found") :=
  (create_characterization 2024 3 nurseSt 99 2 540 (some 30) "checkup" 5).1
    (by decide)

/-- C9: rescheduling runs the availability check with the appointment's own
id excluded: a missing id gives 404; a body changing neither date nor
duration performs no availability check and succeeds however the calendar
looks; when the check runs, a new window clear of every OTHER non-terminal
appointment of the doctor succeeds — overlap with the appointment's own
previous window is irrelevant — while overlap with any other non-terminal
appointment of the doctor yields 409. -/
theorem reschedule_spec (st : St) (id : Nat) (u : UpdateReq) (now : Int)
    (actor : Nat) (hwf : WFSt st) :
    (findAppt st.appts id = none →
      updateAppointment st id u now actor =
        .error (.notFound404 "Appointment not found")) ∧
    (∀ a, findAppt st.appts id = some a → u.date = none →
      u.durationMinutes = none →
      updateAppointment st id u now actor =
        .ok { st with appts := st.appts.map (fun x =>
          if x.id == id then applyStamp x u now actor else x) }) ∧
    (∀ a, findAppt st.appts id = some a → needsCheck u = true →
      ((∀ b ∈ st.appts, b.id ≠ id → b.doctorId = a.doctorId →
          activeStatus b.status = true →
          ¬ overlapHalf (u.date.getD a.date)
            (u.date.getD a.date + (updCheckDur u a : Int)) b.date
            (b.date + (b.durationMinutes : Int))) →
        updateAppointment st id u now actor =
          .ok { st with appts := st.appts.map (fun x =>
            if x.id == id then applyStamp x u now actor else x) }) ∧
      (∀ b ∈ st.appts, b.id ≠ id → b.doctorId = a.doctorId →
        activeStatus b.status = true →
        overlapHalf (u.date.getD a.date)
          (u.date.getD a.date + (updCheckDur u a : Int)) b.date
          (b.date + (b.durationMinutes : Int)) →
        updateAppointment st id u now actor = .error .conflict409)) := by
  refine ⟨fun h => updateAppointment_of_find_none h, ?_, ?_⟩
  · intro a hf hd hdm
    have hn : needsCheck u = false := by simp [needsCheck, hd, hdm]
    exact updateAppointment_of_no_check hf hn
  · intro a hf hn
    obtain ⟨hmem, hid⟩ := findAppt_eq_some hf
    constructor
    · intro hfree
      apply updateAppointment_of_check_ok hf hn
      rw [checkAvailability_iff st.appts a.doctorId (u.date.getD a.date)
        (updCheckDur u a) (some id) (updCheckDur_pos (hwf.2.2 a hmem))
        hwf.2.2]
      intro b hb hbdoc hbact hbne
      exact hfree b hb (hbne id rfl) hbdoc hbact
    · intro b hb hbne hbdoc hbact hbov
      cases hc : checkAvailability st.appts a.doctorId (u.date.getD a.date)
        (updCheckDur u a) (some id) with
      | false => exact updateAppointment_of_check_fail hf hn hc
      | true =>
        exfalso
        have hchar := (checkAvailability_iff st.appts a.doctorId
          (u.date.getD a.date) (updCheckDur u a) (some id)
          (updCheckDur_pos (hwf.2.2 a hmem)) hwf.2.2).mp hc
        exact hchar b hb hbdoc hbact (fun x hx => by cases hx; exact hbne) hbov

/-- Witness for C9: moving the 09:00 demo appointment to 09:15 overlaps only
its own previous window and succeeds. -/
theorem reschedule_spec_witness :
    updateAppointment schedSt 1 rescheduleSelf 0 5 =
      .ok { schedSt with appts := schedSt.appts.map (fun x =>
        if x.id == 1 then applyStamp x rescheduleSelf 0 5 else x) } :=
  (((reschedule_spec schedSt 1 rescheduleSelf 0 5 (by decide)).2.2) demoAppt
    (by decide) (by decide)).1 (by decide)

/-- C10 counterexample: on an empty schedule, two create requests for the
same doctor and the identical window both pass their availability read
against the same store state; if both then perform their insert (the
handler has no transaction or store uniqueness guard spanning the two), both
rows commit and the no-overlap invariant is violated — not "exactly one
succeeds". -/
theorem both_commit_concrete :
    createReadPhase freeSt 1 3 540 (some 30) = none ∧
    createReadPhase freeSt 2 3 540 (some 30) = none ∧
    (createWritePhase 2024 3 (createWritePhase 2024 3 freeSt 1 3 540
      (some 30) "checkup" 4) 2 3 540 (some 30) "checkup" 4).appts.length =
      2 ∧
    ¬ NoOverlapInv (createWritePhase 2024 3 (createWritePhase 2024 3 freeSt
      1 3 540 (some 30) "checkup" 4) 2 3 540 (some 30) "checkup" 4) := by
  decide

/-- C10 (amended): whenever two create requests for the same doctor and the
same window each pass the read phase (validations + availability check)
against the same store state — the schedule read1, read2, write1, write2,
reachable because the handler spans its availability read and its insert
over two separate awaited store calls with no transaction or uniqueness
guard — both requests succeed, both rows commit, and the final store
violates the no-overlap invariant. -/
theorem concurrent_creates_both_commit (y m : Nat) (st : St)
    (p1 p2 doctorId : Nat) (date : Int) (dur : Nat) (ty1 ty2 : String)
    (c1 c2 : Nat) (hdur : 0 < dur)
    (h1 : createReadPhase st p1 doctorId date (some dur) = none)
    (h2 : createReadPhase st p2 doctorId date (some dur) = none) :
    createAppointment y m st p1 doctorId date (some dur) ty1 c1 =
      .ok (newApptOf y m st p1 doctorId date (some dur) ty1 c1,
        createWritePhase y m st p1 doctorId date (some dur) ty1 c1) ∧
    createAppointment y m st p2 doctorId date (some dur) ty2 c2 =
      .ok (newApptOf y m st p2 doctorId date (some dur) ty2 c2,
        createWritePhase y m st p2 doctorId date (some dur) ty2 c2) ∧
    (createWritePhase y m (createWritePhase y m st p1 doctorId date
      (some dur) ty1 c1) p2 doctorId date (some dur) ty2 c2).appts.length =
      st.appts.length + 2 ∧
    ¬ NoOverlapInv (createWritePhase y m (createWritePhase y m st p1
      doctorId date (some dur) ty1 c1) p2 doctorId date (some dur) ty2
      c2) := by
  refine ⟨createAppointment_of_read_ok h1, createAppointment_of_read_ok h2,
    ?_, ?_⟩
  · simp [createWritePhase]
  · intro hinv
    have hpair := hinv
      (newApptOf y m (createWritePhase y m st p1 doctorId date (some dur)
        ty1 c1) p2 doctorId date (some dur) ty2 c2)
      (List.mem_cons_self _ _)
      (newApptOf y m st p1 doctorId date (some dur) ty1 c1)
      (List.mem_cons_of_mem _ (List.mem_cons_self _ _))
      (by simp [newApptOf, createWritePhase])
      rfl rfl rfl
    apply hpair
    constructor
    · show date < date + ((some dur).getD 30 : Int)
      simp only [Option.getD_some]
      omega
    · show date < date + ((some dur).getD 30 : Int)
      simp only [Option.getD_some]
      omega

/-- Witness for the amended C10 on the concrete empty schedule. -/
theorem concurrent_creates_both_commit_witness :
    ¬ NoOverlapInv (createWritePhase 2024 3 (createWritePhase 2024 3 freeSt
      1 3 540 (some 30) "checkup" 4) 2 3 540 (some 30) "checkup" 4) :=
  (concurrent_creates_both_commit 2024 3 freeSt 1 2 3 540 30 "checkup"
    "checkup" 4 4 (by decide) (by decide) (by decide)).2.2.2

/-! ### Identifier generator proofs -/

theorem natDigitsAux_fuel : ∀ f g n, n ≤ f → n ≤ g →
    natDigitsAux f n = natDigitsAux g n := by
  intro f
  induction f with
  | zero =>
    intro g n hf _
    interval_cases n
    cases g <;> rfl
  | succ f ih =>
    intro g n hf hg
    cases n with
    | zero => cases g <;> rfl
    | succ n =>
      cases g with
      | zero => omega
      | succ g =>
        show (n + 1) % 10 :: natDigitsAux f ((n + 1) / 10) =
          (n + 1) % 10 :: natDigitsAux g ((n + 1) / 10)
        have hd : (n + 1) / 10 ≤ n := by omega
        rw [ih g ((n + 1) / 10) (by omega) (by omega)]

theorem natDigits_pos {n : Nat} (h : 0 < n) :
    natDigits n = n % 10 :: natDigits (n / 10) := by
  cases n with
  | zero => omega
  | succ m =>
    show natDigitsAux (m + 1) (m + 1) = _
    show (m + 1) % 10 :: natDigitsAux m ((m + 1) / 10) = _
    rw [natDigitsAux_fuel m ((m + 1) / 10) ((m + 1) / 10) (by omega) le_rfl]
    rfl

theorem natDigits_lt10 {n : Nat} (h1 : 0 < n) (h2 : n < 10) :
    natDigits n = [n] := by
  rw [natDigits_pos h1, Nat.mod_eq_of_lt h2, Nat.div_eq_of_lt h2]
  rfl

theorem natDigits_lt100 {n : Nat} (h1 : 10 ≤ n) (h2 : n < 100) :
    natDigits n = [n % 10, n / 10] := by
  rw [natDigits_pos (by omega), natDigits_lt10 (by omega) (by omega)]

theorem natDigits_lt1000 {n : Nat} (h1 : 100 ≤ n) (h2 : n < 1000) :
    natDigits n = [n % 10, n / 10 % 10, n / 100] := by
  rw [natDigits_pos (by omega), natDigits_lt100 (by omega) (by omega)]
  rw [Nat.div_div_eq_div_mul]

theorem natDigits_lt10000 {n : Nat} (h1 : 1000 ≤ n) (h2 : n < 10000) :
    natDigits n = [n % 10, n / 10 % 10, n / 100 % 10, n / 1000] := by
  rw [natDigits_pos (by omega), natDigits_lt1000 (by omega) (by omega)]
  rw [Nat.div_div_eq_div_mul, Nat.div_div_eq_div_mul]

theorem padStart4_one (c : Char) :
    (padStart 4 (String.mk [c])).data = ['0', '0', '0', c] := rfl

theorem padStart4_two (c d : Char) :
    (padStart 4 (String.mk [c, d])).data = ['0', '0', c, d] := rfl

theorem padStart4_three (c d e : Char) :
    (padStart 4 (String.mk [c, d, e])).data = ['0', c, d, e] := rfl

theorem padStart4_four (c d e f : Char) :
    (padStart 4 (String.mk [c, d, e, f])).data = [c, d, e, f] := rfl

theorem pad4_data {k : Nat} (h1 : 1 ≤ k) (h2 : k ≤ 9999) :
    (pad4 k).data = pad4Data k := by
  unfold pad4 natRepr
  rw [if_neg (by omega : ¬ k = 0)]
  rcases Nat.lt_or_ge k 10 with h | h
  · rw [natDigits_lt10 (by omega) h]
    show (padStart 4 (String.mk [digChar k])).data = _
    rw [padStart4_one]
    unfold pad4Data
    have e1 : k / 1000 = 0 := by omega
    have e2 : k / 100 % 10 = 0 := by omega
    have e3 : k / 10 % 10 = 0 := by omega
    have e4 : k % 10 = k := by omega
    rw [e1, e2, e3, e4]
    rfl
  rcases Nat.lt_or_ge k 100 with h' | h'
  · rw [natDigits_lt100 h h']
    show (padStart 4 (String.mk [digChar (k / 10), digChar (k % 10)])).data = _
    rw [padStart4_two]
    unfold pad4Data
    have e1 : k / 1000 = 0 := by omega
    have e2 : k / 100 % 10 = 0 := by omega
    have e3 : k / 10 % 10 = k / 10 := by omega
    rw [e1, e2, e3]
    rfl
  rcases Nat.lt_or_ge k 1000 with h'' | h''
  · rw [natDigits_lt1000 h' h'']
    show (padStart 4 (String.mk
      [digChar (k / 100), digChar (k / 10 % 10), digChar (k % 10)])).data = _
    rw [padStart4_three]
    unfold pad4Data
    have e1 : k / 1000 = 0 := by omega
    have e2 : k / 100 % 10 = k / 100 := by omega
    rw [e1, e2]
    rfl
  · rw [natDigits_lt10000 h'' (by omega)]
    show (padStart 4 (String.mk [digChar (k / 1000), digChar (k / 100 % 10),
      digChar (k / 10 % 10), digChar (k % 10)])).data = _
    rw [padStart4_four]
    rfl

theorem digChar_toNat {n : Nat} (h : n < 10) : (digChar n).toNat = 48 + n := by
  interval_cases n <;> decide

theorem isDigitB_digChar {n : Nat} (h : n < 10) : isDigitB (digChar n) = true := by
  interval_cases n <;> decide

theorem charsLt_pad4 {a b : Nat} (ha : a ≤ 9999) (hb : b ≤ 9999) :
    charsLt (pad4Data a) (pad4Data b) = decide (a < b) := by
  unfold pad4Data
  simp only [charsLt]
  rw [digChar_toNat (by omega : a / 1000 < 10),
    digChar_toNat (by omega : b / 1000 < 10),
    digChar_toNat (by omega : a / 100 % 10 < 10),
    digChar_toNat (by omega : b / 100 % 10 < 10),
    digChar_toNat (by omega : a / 10 % 10 < 10),
    digChar_toNat (by omega : b / 10 % 10 < 10),
    digChar_toNat (by omega : a % 10 < 10),
    digChar_toNat (by omega : b % 10 < 10)]
  split_ifs <;>
    first
    | (rw [eq_comm, decide_eq_true_eq]; omega)
    | (rw [eq_comm, decide_eq_false_iff_not]; omega)

theorem charsLt_irrefl : ∀ l : List Char, charsLt l l = false := by
  intro l
  induction l with
  | nil => rfl
  | cons c cs ih =>
    show (if c.toNat < c.toNat then true
      else if c.toNat < c.toNat then false else charsLt cs cs) = false
    rw [if_neg (Nat.lt_irrefl _), if_neg (Nat.lt_irrefl _), ih]

theorem charsLt_append_left : ∀ p a b : List Char,
    charsLt (p ++ a) (p ++ b) = charsLt a b := by
  intro p
  induction p with
  | nil => intro a b; rfl
  | cons c cs ih =>
    intro a b
    show (if c.toNat < c.toNat then true
      else if c.toNat < c.toNat then false
      else charsLt (cs ++ a) (cs ++ b)) = charsLt a b
    rw [if_neg (Nat.lt_irrefl _), if_neg (Nat.lt_irrefl _), ih]

theorem strData_append (a b : String) : (a ++ b).data = a.data ++ b.data := rfl

theorem strLtB_pad4 {p : String} {a b : Nat} (ha : 1 ≤ a) (ha9 : a ≤ 9999)
    (hb : 1 ≤ b) (hb9 : b ≤ 9999) :
    strLtB (p ++ pad4 a) (p ++ pad4 b) = decide (a < b) := by
  unfold strLtB
  rw [strData_append, strData_append, charsLt_append_left,
    pad4_data ha ha9, pad4_data hb hb9, charsLt_pad4 ha9 hb9]

theorem strLtB_ne {a b : String} (h : strLtB a b = true) : a ≠ b := by
  intro hc
  rw [hc] at h
  unfold strLtB at h
  rw [charsLt_irrefl] at h
  cases h

theorem likeMatch_append : ∀ p rest : List Char,
    likeMatch p (p ++ rest) = true := by
  intro p
  induction p with
  | nil => intro rest; rfl
  | cons c cs ih =>
    intro rest
    show (c == c && likeMatch cs (cs ++ rest)) = true
    rw [ih]
    simp

theorem scopeMatch_append (p t : String) : scopeMatch p (p ++ t) = true := by
  unfold scopeMatch
  rw [strData_append]
  exact likeMatch_append p.data t.data

theorem stripScope_append (p t : String) : stripScope p (p ++ t) = t := by
  unfold stripScope
  rw [strData_append, List.drop_left]

theorem digitsVal_pad4 {k : Nat} (hk : k ≤ 9999) :
    digitsVal (pad4Data k) = k := by
  unfold pad4Data digitsVal
  simp only [List.foldl]
  rw [digChar_toNat (by omega : k / 1000 < 10),
    digChar_toNat (by omega : k / 100 % 10 < 10),
    digChar_toNat (by omega : k / 10 % 10 < 10),
    digChar_toNat (by omega : k % 10 < 10)]
  omega

theorem parse_pad4 {k : Nat} (h1 : 1 ≤ k) (h2 : k ≤ 9999) :
    parseIntD (pad4 k) = some k := by
  unfold parseIntD
  rw [pad4_data h1 h2]
  have htw : (pad4Data k).takeWhile isDigitB = pad4Data k := by
    unfold pad4Data
    simp only [List.takeWhile]
    rw [isDigitB_digChar (by omega : k / 1000 < 10),
      isDigitB_digChar (by omega : k / 100 % 10 < 10),
      isDigitB_digChar (by omega : k / 10 % 10 < 10),
      isDigitB_digChar (by omega : k % 10 < 10)]
  rw [htw]
  rw [if_neg (by unfold pad4Data; simp)]
  rw [digitsVal_pad4 h2]

theorem strip_parse {p : String} {k : Nat} (h1 : 1 ≤ k) (h2 : k ≤ 9999) :
    (parseIntD (stripScope p (p ++ pad4 k))).getD 0 = k := by
  rw [stripScope_append, parse_pad4 h1 h2]
  rfl

/-- Folding the store's `max` over a well-formed scope: an empty scope gives
nothing, otherwise the lexicographic maximum is the padded numeric maximum. -/
theorem lexMax_fold (p : String) : ∀ l : List String,
    (∀ s ∈ l, ∃ k, 1 ≤ k ∧ k ≤ 9999 ∧ s = p ++ pad4 k) →
    (l = [] ∧
      (l.map (fun s => (parseIntD (stripScope p s)).getD 0)).foldr max 0 = 0) ∨
    (1 ≤ (l.map (fun s => (parseIntD (stripScope p s)).getD 0)).foldr max 0 ∧
     (l.map (fun s => (parseIntD (stripScope p s)).getD 0)).foldr max 0 ≤ 9999 ∧
     lexMax? l = some (p ++ pad4
       ((l.map (fun s => (parseIntD (stripScope p s)).getD 0)).foldr max 0))) := by
  intro l
  induction l with
  | nil => intro _; exact Or.inl ⟨rfl, rfl⟩
  | cons s rest ih =>
    intro hl
    obtain ⟨k, hk1, hk9, hs⟩ := hl s (List.mem_cons_self s rest)
    have hks : (parseIntD (stripScope p s)).getD 0 = k := by
      rw [hs]; exact strip_parse hk1 hk9
    rcases ih (fun t ht => hl t (List.mem_cons_of_mem s ht)) with
      ⟨hnil, hzero⟩ | ⟨hm1, hm9, hmax⟩
    · subst hnil
      refine Or.inr ⟨?_, ?_, ?_⟩
      · simp only [List.map_cons, List.map_nil, List.foldr, hks]
        omega
      · simp only [List.map_cons, List.map_nil, List.foldr, hks]
        omega
      · simp only [List.map_cons, List.map_nil, List.foldr, hks]
        show some s = _
        rw [hs, Nat.max_eq_left (by omega)]
    · set M := (rest.map (fun s => (parseIntD (stripScope p s)).getD 0)).foldr
        max 0 with hM
      refine Or.inr ⟨?_, ?_, ?_⟩
      · simp only [List.map_cons, List.foldr, hks, ← hM]
        omega
      · simp only [List.map_cons, List.foldr, hks, ← hM]
        omega
      · simp only [List.map_cons, List.foldr, hks, ← hM]
        show (match lexMax? rest with
          | none => some s
          | some t => if strLtB t s then some s else some t) = _
        rw [hmax, hs]
        show (if strLtB (p ++ pad4 M) (p ++ pad4 k) = true
          then some (p ++ pad4 k) else some (p ++ pad4 M)) = _
        rw [strLtB_pad4 hm1 hm9 hk1 hk9]
        rcases Nat.lt_or_ge M k with hMk | hMk
        · rw [if_pos (by simpa using hMk)]
          rw [Nat.max_eq_left (by omega)]
        · rw [if_neg (by simpa using hMk)]
          rw [Nat.max_eq_right (by omega)]

theorem genNumber_formula (y m : Nat) (numbers : List String)
    (hwf : WFScope (pfxOf y m) numbers) :
    genAppointmentNumber y m numbers =
      pfxOf y m ++ pad4 (specGreatestSeq (pfxOf y m) numbers + 1) := by
  have hl : ∀ s ∈ numbers.filter (fun s => scopeMatch (pfxOf y m) s),
      ∃ k, 1 ≤ k ∧ k ≤ 9999 ∧ s = pfxOf y m ++ pad4 k := by
    intro s hs
    have hmem := List.mem_filter.mp hs
    exact hwf s hmem.1 hmem.2
  show pfxOf y m ++ padStart 4 (optNumStr
    (match lexMax? (numbers.filter (fun s => scopeMatch (pfxOf y m) s)) with
     | none => some 1
     | some s => (parseIntD (stripScope (pfxOf y m) s)).map (· + 1))) = _
  unfold specGreatestSeq
  rcases lexMax_fold (pfxOf y m)
    (numbers.filter (fun s => scopeMatch (pfxOf y m) s)) hl with
    ⟨hnil, hzero⟩ | ⟨h1, h9, hmax⟩
  · rw [hnil]
    rfl
  · rw [hmax]
    show pfxOf y m ++ padStart 4 (optNumStr
      ((parseIntD (stripScope (pfxOf y m) (pfxOf y m ++ pad4 _))).map
        (· + 1))) = _
    rw [stripScope_append, parse_pad4 h1 h9]
    rfl

theorem wfScope_insert {p : String} {numbers : List String} {k : Nat}
    (hwf : WFScope p numbers) (h1 : 1 ≤ k) (h9 : k ≤ 9999) :
    WFScope p ((p ++ pad4 k) :: numbers) := by
  intro s hs hm
  rcases List.mem_cons.mp hs with rfl | hs'
  · exact ⟨k, h1, h9, rfl⟩
  · exact hwf s hs' hm

theorem specSeq_insert {p : String} {numbers : List String} {k : Nat}
    (h1 : 1 ≤ k) (h9 : k ≤ 9999) :
    specGreatestSeq p ((p ++ pad4 k) :: numbers) =
      max k (specGreatestSeq p numbers) := by
  unfold specGreatestSeq
  rw [List.filter_cons_of_pos (scopeMatch_append p (pad4 k))]
  simp only [List.map_cons, List.foldr]
  rw [strip_parse h1 h9]

theorem genRun_eq_padRun (y m : Nat) : ∀ (N : Nat) (numbers : List String),
    WFScope (pfxOf y m) numbers →
    specGreatestSeq (pfxOf y m) numbers + N ≤ 9999 →
    genRun y m N numbers =
      padRun (pfxOf y m) (specGreatestSeq (pfxOf y m) numbers) N := by
  intro N
  induction N with
  | zero => intro numbers _ _; rfl
  | succ n ih =>
    intro numbers hwf hbound
    have hgen := genNumber_formula y m numbers hwf
    show genAppointmentNumber y m numbers ::
      genRun y m n (genAppointmentNumber y m numbers :: numbers) = _
    rw [hgen]
    have hM1 : 1 ≤ specGreatestSeq (pfxOf y m) numbers + 1 := by omega
    have hM9 : specGreatestSeq (pfxOf y m) numbers + 1 ≤ 9999 := by omega
    have hwf' := wfScope_insert hwf hM1 hM9
    have hseq : specGreatestSeq (pfxOf y m)
        ((pfxOf y m ++ pad4 (specGreatestSeq (pfxOf y m) numbers + 1)) ::
          numbers) = specGreatestSeq (pfxOf y m) numbers + 1 := by
      rw [specSeq_insert hM1 hM9]
      omega
    rw [ih ((pfxOf y m ++ pad4 (specGreatestSeq (pfxOf y m) numbers + 1)) ::
      numbers) hwf' (by rw [hseq]; omega), hseq]
    rfl

theorem padRun_mem {p : String} : ∀ {N M : Nat} {b : String},
    b ∈ padRun p M N → ∃ j, M < j ∧ j ≤ M + N ∧ b = p ++ pad4 j := by
  intro N
  induction N with
  | zero =>
    intro M b hb
    cases hb
  | succ n ih =>
    intro M b hb
    rcases List.mem_cons.mp hb with rfl | hb'
    · exact ⟨M + 1, by omega, by omega, rfl⟩
    · obtain ⟨j, hj1, hj2, hj3⟩ := ih hb'
      exact ⟨j, by omega, by omega, hj3⟩

theorem padRun_pairwise {p : String} : ∀ (N M : Nat), M + N ≤ 9999 →
    List.Pairwise (fun a b => strLtB a b = true ∧ a ≠ b) (padRun p M N) := by
  intro N
  induction N with
  | zero => intro M _; exact List.Pairwise.nil
  | succ n ih =>
    intro M hbound
    refine List.Pairwise.cons ?_ (ih (M + 1) (by omega))
    intro b hb
    obtain ⟨j, hj1, hj2, rfl⟩ := padRun_mem hb
    have hlt : strLtB (p ++ pad4 (M + 1)) (p ++ pad4 j) = true := by
      rw [strLtB_pad4 (by omega) (by omega) (by omega) (by omega)]
      simp only [decide_eq_true_eq]
      omega
    exact ⟨hlt, strLtB_ne hlt⟩

/-- C4: for every generation month and every well-formed set of stored
numbers, the generated number is the scope key followed by the greatest
existing sequence for that key plus one (one on an empty scope), left-padded
to 4 digits; the first booking of March 2024 yields `A2024030001` and the
next `A2024030002`; and N sequential generations within one month, each
inserted before the next, produce lexicographically strictly increasing,
pairwise distinct numbers. -/
theorem generator_spec :
    (∀ y m numbers, WFScope (pfxOf y m) numbers →
      genAppointmentNumber y m numbers =
        pfxOf y m ++ pad4 (specGreatestSeq (pfxOf y m) numbers + 1)) ∧
    genAppointmentNumber 2024 3 [] = "A2024030001" ∧
    genAppointmentNumber 2024 3 ["A2024030001"] = "A2024030002" ∧
    (∀ y m numbers N, WFScope (pfxOf y m) numbers →
      specGreatestSeq (pfxOf y m) numbers + N ≤ 9999 →
      List.Pairwise (fun a b => strLtB a b = true ∧ a ≠ b)
        (genRun y m N numbers)) := by
  refine ⟨genNumber_formula, by decide, by decide, ?_⟩
  intro y m numbers N hwf hbound
  rw [genRun_eq_padRun y m N numbers hwf hbound]
  exact padRun_pairwise N (specGreatestSeq (pfxOf y m) numbers) hbound

/-- Witness for C4 at a concrete scope and a 3-step sequential run. -/
theorem generator_spec_witness :
    genAppointmentNumber 2024 3 ["A2024030007"] =
      pfxOf 2024 3 ++ pad4 (specGreatestSeq (pfxOf 2024 3)
        ["A2024030007"] + 1) ∧
    List.Pairwise (fun a b => strLtB a b = true ∧ a ≠ b)
      (genRun 2024 3 3 []) := by
  constructor
  · apply generator_spec.1
    intro s hs hm
    rw [List.mem_singleton] at hs
    subst hs
    exact ⟨7, by decide, by decide, by decide⟩
  · exact generator_spec.2.2.2 2024 3 [] 3
      (fun s hs _ => absurd hs (List.not_mem_nil s)) (by decide)

/-- C5: when the greatest existing sequence of the (2024, 03) scope is 9999,
generation does NOT fail with a capacity error — it silently returns the
5-digit `A20240310000`; and at the resulting store the very next generation
returns `A20240310000` again (the lexicographic maximum regresses to
`...9999`), a collision with a stored number. -/
theorem capacity_overflow_silent :
    genAppointmentNumber 2024 3 ["A2024039999"] = "A20240310000" ∧
    genAppointmentNumber 2024 3 ["A2024039999", "A20240310000"] =
      "A20240310000" := by
  decide
